import Mathlib

/-
Verification of the InnovateX Detection & Result-Lifecycle Pipeline
against its natural-language specification.

The JavaScript frontend (frontend/src) is shallowly embedded here:
JS numbers are modelled as rationals (ℚ), JS strings as Lean strings
(or as Char lists where prefix reasoning is needed), JSON objects as
typed records with Option fields for properties the code guards for
absence, and fallible code as Option / Except values.
-/

namespace InnovateX

/-! ## Data model (backend JSON response, frontend/src/App.jsx) -/

/-- Page size in PDF points, as carried in the backend response. -/
structure PageSize where
  width : ℚ
  height : ℚ
deriving DecidableEq

/-- Bounding box (x, y, width, height). -/
structure BBox where
  x : ℚ
  y : ℚ
  width : ℚ
  height : ℚ
deriving DecidableEq

/-- One annotation of a backend-format page: App.jsx reads ann.id,
ann.category, ann.bbox, ann.confidence; convertOldFormat additionally
emits an area field, which parseBackend ignores. -/
structure BackendAnn where
  id : String
  category : String
  bbox : BBox
  confidence : ℚ
  area : Option ℚ
deriving DecidableEq

/-- One page of the backend response (page.annotations may be absent:
the code reads page.annotations with a fallback empty list). -/
structure BackendPage where
  page_number : Int
  page_size : Option PageSize
  annotations : Option (List BackendAnn)
deriving DecidableEq

/-- The backend response object. document_name and pages may be absent
(parseBackend checks their truthiness before use). -/
structure BackendReport where
  document_name : Option String
  total_pages : Int
  pages : Option (List BackendPage)
  processing_time : ℚ
deriving DecidableEq

/-! ## Parsed (frontend) representation, App.jsx parseBackend -/

/-- One item of a parsed page (App.jsx parseBackend items map). -/
structure ParsedItem where
  id : String
  category : String
  bbox : BBox
  confidence : ℚ
  area : ℚ
deriving DecidableEq

/-- One parsed page (App.jsx parseBackend pages map). -/
structure ParsedPage where
  index : ℕ
  pageKey : String
  pageSize : Option PageSize
  items : List ParsedItem
deriving DecidableEq

/-- Per-category counters (App.jsx parseBackend counters reduce). -/
structure Counters where
  qr : ℕ
  signatures : ℕ
  stamps : ℕ
deriving DecidableEq

/-- Result of parseBackend. -/
structure Parsed where
  fileName : String
  pages : List ParsedPage
  counters : Counters
  processingTime : ℚ
deriving DecidableEq

/-- App.jsx parseBackend: one annotation to one item, recomputing area
from the bbox. -/
def parseAnn (ann : BackendAnn) : ParsedItem :=
  { id := ann.id
    category := ann.category
    bbox := ann.bbox
    confidence := ann.confidence
    area := ann.bbox.width * ann.bbox.height }

/-- App.jsx parseBackend: one page at map index idx. -/
def parsePage (idx : ℕ) (page : BackendPage) : ParsedPage :=
  { index := idx
    pageKey := "page_" ++ toString page.page_number
    pageSize := page.page_size
    items := (page.annotations.getD []).map parseAnn }

/-- App.jsx parseBackend: json.pages.map((page, idx) => ...), written
as structural recursion on the page list with an explicit index. -/
def parsePages (idx : ℕ) : List BackendPage → List ParsedPage
  | [] => []
  | p :: rest => parsePage idx p :: parsePages (idx + 1) rest

/-- The body of the forEach inside the counters reduce of parseBackend. -/
def counterStep (acc : Counters) (it : ParsedItem) : Counters :=
  if it.category = "qr" then { acc with qr := acc.qr + 1 }
  else if it.category = "signature" then { acc with signatures := acc.signatures + 1 }
  else if it.category = "stamp" then { acc with stamps := acc.stamps + 1 }
  else acc

/-- App.jsx parseBackend: the counters reduce over the parsed pages. -/
def countersOf (pages : List ParsedPage) : Counters :=
  pages.foldl (fun acc p => p.items.foldl counterStep acc) { qr := 0, signatures := 0, stamps := 0 }

/-- App.jsx parseBackend. The code rejects a response whose
document_name or pages is falsy or whose pages is not an array;
in this typed embedding that is document_name absent or empty,
or pages absent. -/
def parseBackend (json : BackendReport) : Option Parsed :=
  match json.document_name, json.pages with
  | some dn, some ps =>
      if dn = "" then none
      else
        some { fileName := dn
               pages := parsePages 0 ps
               counters := countersOf (parsePages 0 ps)
               processingTime := json.processing_time }
  | _, _ => none

/-- App.jsx: ResultsPanel receives pageCount={results.pages.length};
the displayed page count is the length of the parsed pages list. -/
def displayedPageCount (r : Parsed) : ℕ :=
  r.pages.length

/-! ## convertOldFormat (App.jsx) -/

/-- Value part of one old-format annotation entry. -/
structure OldAnnVal where
  category : String
  bbox : BBox
  area : ℚ
deriving DecidableEq

/-- One old-format annotation entry: the object literally has shape
    braces idKey : value braces; the code takes its first key. -/
structure OldEntry where
  idKey : String
  value : OldAnnVal
deriving DecidableEq

/-- One old-format page. -/
structure OldPage where
  page_size : Option PageSize
  annotations : Option (List OldEntry)
deriving DecidableEq

/-- The old-format JSON object: an object whose first key is the file
name and whose value maps keys of the form page_N to pages. The page
keys are modelled by their numeric part N, which is what the code
sorts by (parseInt of the key with the page_ part removed). -/
def OldJson : Type := List (String × List (ℕ × OldPage))

/-- App.jsx convertOldFormat: one old page at map index idx becomes a
backend-format page with page_number idx+1 and fixed confidence 0.95. -/
def convertPages (idx : ℕ) : List (ℕ × OldPage) → List BackendPage
  | [] => []
  | (_, page) :: rest =>
      { page_number := (idx : Int) + 1
        page_size := page.page_size
        annotations := some ((page.annotations.getD []).map (fun e =>
          { id := e.idKey
            category := e.value.category
            bbox := e.value.bbox
            confidence := 0.95
            area := some e.value.area })) } :: convertPages (idx + 1) rest

/-- App.jsx convertOldFormat. The page keys are sorted ascending by
their numeric part, then mapped in order. Returns none when the object
has no first key (or an empty-string key, which is falsy in JS). -/
def convertOldFormat (json : OldJson) : Option BackendReport :=
  match json with
  | [] => none
  | (fileKey, fileData) :: _ =>
      if fileKey = "" then none
      else
        let sorted := List.insertionSort (fun a b => a.1 ≤ b.1) fileData
        some { document_name := some fileKey
               total_pages := (sorted.length : Int)
               pages := some (convertPages 0 sorted)
               processing_time := 0 }

/-! ## DocumentsList.jsx -/

/-- State of one document in multi-scan mode (App.jsx documents array;
the browser File object is omitted). -/
structure DocState where
  status : String
  results : Option Parsed
  error : Option String
deriving DecidableEq

/-- Accumulator of the DocumentsList totalStats reduce. -/
structure TotalStats where
  qr : ℕ
  signatures : ℕ
  stamps : ℕ
  pages : ℕ
  processingTime : ℚ
deriving DecidableEq

/-- One step of the DocumentsList totalStats reduce: a document with
results contributes its counters, page count and processing time. -/
def totalStatsStep (acc : TotalStats) (doc : DocState) : TotalStats :=
  match doc.results with
  | some r =>
      { qr := acc.qr + r.counters.qr
        signatures := acc.signatures + r.counters.signatures
        stamps := acc.stamps + r.counters.stamps
        pages := acc.pages + r.pages.length
        processingTime := acc.processingTime + r.processingTime }
  | none => acc

/-- DocumentsList.jsx totalStats. -/
def totalStats (docs : List DocState) : TotalStats :=
  docs.foldl totalStatsStep { qr := 0, signatures := 0, stamps := 0, pages := 0, processingTime := 0 }

/-- DocumentsList.jsx completedDocs tally. -/
def completedCount (docs : List DocState) : ℕ :=
  (docs.filter (fun d => d.status == "completed")).length

/-- DocumentsList.jsx errorDocs tally. -/
def errorCount (docs : List DocState) : ℕ :=
  (docs.filter (fun d => d.status == "error")).length

/-- Per-category count of one annotation list. -/
def annCount (c : String) (anns : List BackendAnn) : ℕ :=
  anns.countP (fun a => a.category == c)

/-- Number of detections of category c summed over all pages of a
backend report, computed from the per-page annotation lists. -/
def sumCat (c : String) (json : BackendReport) : ℕ :=
  ((json.pages.getD []).map (fun p => annCount c (p.annotations.getD []))).sum

/-- One counter field of a document's results, 0 when it has none. -/
def docCounter (f : Counters → ℕ) (d : DocState) : ℕ :=
  match d.results with
  | some r => f r.counters
  | none => 0

/-- Sum of one counter field over the completed documents, following
the spec text: multi-document totals are recomputed by summing each
completed document's counters. -/
def completedCounterSum (f : Counters → ℕ) (docs : List DocState) : ℕ :=
  ((docs.filter (fun d => d.status == "completed")).map (docCounter f)).sum

/-! ## PdfViewer.jsx -/

/-- PdfViewer.jsx categoryColor: blue for qr, green for signature,
orange otherwise. -/
def categoryColor (c : String) : String :=
  if c = "qr" then "blue"
  else if c = "signature" then "green"
  else "orange"

/-- The visible toggles state of the viewer (initially all true). -/
structure VisibleToggles where
  qr : Bool
  signature : Bool
  stamp : Bool
deriving DecidableEq

/-- JS property lookup visible[category]: defined for the three fixed
keys, undefined (none) for every other category string. -/
def visibleLookup (v : VisibleToggles) (c : String) : Option Bool :=
  if c = "qr" then some v.qr
  else if c = "signature" then some v.signature
  else if c = "stamp" then some v.stamp
  else none

/-- PdfViewer.jsx overlay filter: visible[it.category] !== false. -/
def overlayShown (v : VisibleToggles) (c : String) : Bool :=
  visibleLookup v c != some false

/-- PdfViewer.jsx renderedHeight: (containerWidth * pageSize.height) /
pageSize.width when containerWidth and both page dimensions are
truthy, else the renderedHeightState constant 0. -/
def renderedHeight (cw : ℚ) (ps : PageSize) : ℚ :=
  if cw ≠ 0 ∧ ps.width ≠ 0 ∧ ps.height ≠ 0 then cw * ps.height / ps.width else 0

/-- PdfViewer.jsx scaleX: containerWidth / pageSize.width when both
are truthy, else 1. -/
def scaleX (cw : ℚ) (ps : PageSize) : ℚ :=
  if cw ≠ 0 ∧ ps.width ≠ 0 then cw / ps.width else 1

/-- PdfViewer.jsx scaleY: renderedHeight / pageSize.height when both
are truthy, else 1. -/
def scaleY (cw : ℚ) (ps : PageSize) : ℚ :=
  if renderedHeight cw ps ≠ 0 ∧ ps.height ≠ 0 then renderedHeight cw ps / ps.height else 1

/-- PdfViewer.jsx overlay box mapping: each detection box is placed at
(bbox.x * scaleX, bbox.y * scaleY) with size (bbox.width * scaleX,
bbox.height * scaleY). -/
def overlayBox (cw : ℚ) (ps : PageSize) (b : BBox) : BBox :=
  { x := b.x * scaleX cw ps
    y := b.y * scaleY cw ps
    width := b.width * scaleX cw ps
    height := b.height * scaleY cw ps }

/-- Inverse of the per-axis linear transform: divide each coordinate
by the scale factor of its axis. -/
def inverseBox (sX sY : ℚ) (b : BBox) : BBox :=
  { x := b.x / sX
    y := b.y / sY
    width := b.width / sX
    height := b.height / sY }

/-- The page-navigation operations of the viewer toolbar and page list. -/
inductive NavOp where
  | prev
  | next
  | select (j : ℕ)
  | pageBtn (j : ℕ)
  | thumb (j : ℕ)
deriving DecidableEq

/-- PdfViewer.jsx navigation: Prev sets Math.max(pageIndex - 1, 0)
(truncated subtraction on ℕ), Next sets Math.min(pageIndex + 1,
pages.length - 1), and the page selector, per-page buttons and
thumbnail clicks set an index taken from the range of pages. -/
def navStep (n : ℕ) (i : ℕ) : NavOp → ℕ
  | NavOp.prev => i - 1
  | NavOp.next => min (i + 1) (n - 1)
  | NavOp.select j => j
  | NavOp.pageBtn j => j
  | NavOp.thumb j => j

/-- The indices an operation can carry in the rendered UI: the select
options, page buttons and thumbnails all range over the pages list. -/
def opValid (n : ℕ) : NavOp → Prop
  | NavOp.prev => True
  | NavOp.next => True
  | NavOp.select j => j < n
  | NavOp.pageBtn j => j < n
  | NavOp.thumb j => j < n

/-- PdfViewer.jsx: the Prev button is disabled when pageIndex is 0. -/
def prevDisabled (i : ℕ) : Bool :=
  i == 0

/-- PdfViewer.jsx: the Next button is disabled when pageIndex is
pages.length - 1. -/
def nextDisabled (n i : ℕ) : Bool :=
  i == n - 1

/-- PdfViewer.jsx: the rendered page number is pageIndex + 1. -/
def renderedPageNumber (i : ℕ) : ℕ :=
  i + 1

/-! ## qr.js ensureURLProtocol -/

/-- The characters of the literal http:// . -/
def httpPre : List Char := "http://".toList

/-- The characters of the literal https:// . -/
def httpsPre : List Char := "https://".toList

/-- qr.js ensureURLProtocol, on strings modelled as Char lists: empty
(falsy) input yields the empty string, input already carrying a
protocol is returned unchanged, anything else gets https:// prepended. -/
def ensureURLProtocol (url : List Char) : List Char :=
  if url = [] then []
  else if httpPre.isPrefixOf url || httpsPre.isPrefixOf url then url
  else httpsPre ++ url

/-! ## App.jsx analyzeMultipleDocuments -/

/-- The initial per-document state set before the processing loop. -/
def initialDoc : DocState :=
  { status := "processing", results := none, error := none }

/-- Outcome of processing one document in the loop body: success sets
status completed with the parsed results, any thrown error (fetch
failure or invalid response format) sets status error with its
message. -/
def processOutcome : Except String Parsed → DocState
  | Except.ok r => { status := "completed", results := some r, error := none }
  | Except.error m => { status := "error", results := none, error := some m }

/-- The for loop of analyzeMultipleDocuments: iteration i replaces the
document at index i according to that document's outcome, leaving all
other entries unchanged. -/
def multiLoop (outs : List (Except String Parsed)) (docs : List DocState) : List DocState :=
  (List.range outs.length).foldl
    (fun ds i => ds.set i (processOutcome (outs.getD i (Except.error "")))) docs

/-- App.jsx analyzeMultipleDocuments, parametrised by the outcome of
each document's fetch-and-parse attempt. Returns none on the early
return for an empty selection (no state is touched); otherwise the
final documents array and the final isUploading flag. -/
def analyzeMultipleDocuments (outs : List (Except String Parsed)) :
    Option (List DocState × Bool) :=
  if outs.length = 0 then none
  else some (multiLoop outs (outs.map (fun _ => initialDoc)), false)

/-! ## Retention Ledger (backend scan_history service)

The backend Python service is not part of the source tree here; the
ledger operations below are modelled from the specification. -/

/-- A Retention Ledger entry, per the spec data model (category_counts
expanded into the three per-category fields the API exposes). -/
structure ScanRecord where
  id : ℕ
  owner_id : ℕ
  document_name : String
  scan_date : ℤ
  expires_at : ℤ
  total_pages : ℕ
  qr_count : ℕ
  signature_count : ℕ
  stamp_count : ℕ
  artifact_reference : String
deriving DecidableEq

/-- A caller identity as supplied by the authentication collaborator:
an optional user id (none when anonymous) and an admin flag. -/
structure Caller where
  userId : Option ℕ
  isAdmin : Bool
deriving DecidableEq

/-- Modelled from the spec: the ownership rule of the ledger — an
admin-capability caller may see any record, a regular caller only
their own. -/
def visibleTo (caller : Caller) (r : ScanRecord) : Bool :=
  caller.isAdmin || caller.userId == some r.owner_id

/-- Modelled from the spec: a record whose expires_at has passed is
logically dead; it is live only while now is before expires_at. -/
def isLive (now : ℤ) (r : ScanRecord) : Bool :=
  decide (now < r.expires_at)

/-- Modelled from the spec: delete_scan (backend DELETE /api/scans/id,
whose service code is not under src/). Deletes the ledger row with the
given id when the caller may see it; an absent (or invisible) record
yields the not found signal as a value, never a crash — the function
is total. Record ids are unique (the ledger primary key), so the
filter removes exactly the addressed row. -/
def delete_scan (caller : Caller) (ledger : List ScanRecord) (sid : ℕ) :
    Except String (List ScanRecord) :=
  match ledger.find? (fun r => r.id == sid && visibleTo caller r) with
  | some _ => Except.ok (ledger.filter (fun r => !(r.id == sid)))
  | none => Except.error "not found"

/-- Modelled from the spec: get_scan (backend GET /api/scans/id, whose
service code is not under src/). Readers treat an expired record
exactly as an absent one: only a live, visible record with the given
id can be returned. -/
def get_scan (now : ℤ) (caller : Caller) (ledger : List ScanRecord) (sid : ℕ) :
    Option ScanRecord :=
  ledger.find? (fun r => r.id == sid && visibleTo caller r && isLive now r)

/-- Modelled from the spec: list_scans (backend GET /api/scans/, whose
service code is not under src/): the caller's live records, newest
first. -/
def list_scans (now : ℤ) (caller : Caller) (ledger : List ScanRecord) :
    List ScanRecord :=
  List.insertionSort (fun a b => b.scan_date ≤ a.scan_date)
    (ledger.filter (fun r => visibleTo caller r && isLive now r))

/-- Modelled from the spec: the backend Detector (whose inference code
is not under src/) is given a confidence threshold thr, discards
detections scoring below thr itself, and produces scores in [0, 1]; a
backend report assembled from its per-page outputs therefore has every
annotation confidence in [0, 1] and at least thr. -/
def reportFromDetector (thr : ℚ) (json : BackendReport) : Prop :=
  ∀ p ∈ json.pages.getD [], ∀ a ∈ p.annotations.getD [],
    0 ≤ a.confidence ∧ a.confidence ≤ 1 ∧ thr ≤ a.confidence

/-! ## Concrete inputs used to settle individual claims -/

/-- A backend page whose stated page_number is 7. -/
def pageMismatch : BackendPage :=
  { page_number := 7, page_size := some { width := 100, height := 200 }, annotations := some [] }

/-- A backend report whose total_pages field (2) disagrees with its
actual pages array (one page, numbered 7). -/
def reportMismatch : BackendReport :=
  { document_name := some "mismatch.pdf", total_pages := 2
    pages := some [pageMismatch], processing_time := 0 }

/-- An annotation whose category is outside the closed set. -/
def annUnknown : BackendAnn :=
  { id := "d1", category := "watermark"
    bbox := { x := 10, y := 20, width := 30, height := 40 }
    confidence := 9 / 10, area := none }

/-- A backend page carrying only the unknown-category annotation. -/
def pageUnknown : BackendPage :=
  { page_number := 1, page_size := some { width := 100, height := 200 }
    annotations := some [annUnknown] }

/-- A backend report carrying one detection of an unknown category. -/
def reportUnknown : BackendReport :=
  { document_name := some "unknown.pdf", total_pages := 1
    pages := some [pageUnknown], processing_time := 0 }

/-- A signature annotation with confidence 0.8. -/
def annSigW1 : BackendAnn :=
  { id := "det_1", category := "signature"
    bbox := { x := 1, y := 2, width := 3, height := 4 }
    confidence := 8 / 10, area := none }

/-- A qr annotation with confidence 0.9. -/
def annQrW1 : BackendAnn :=
  { id := "det_2", category := "qr"
    bbox := { x := 5, y := 6, width := 7, height := 8 }
    confidence := 9 / 10, area := none }

/-- A single well-formed backend page with one signature and one qr. -/
def pagesW1 : List BackendPage :=
  [{ page_number := 1, page_size := some { width := 100, height := 200 }
     annotations := some [annSigW1, annQrW1] }]

/-- A well-formed backend report over pagesW1. -/
def reportW1 : BackendReport :=
  { document_name := some "a.pdf", total_pages := 1
    pages := some pagesW1, processing_time := 0 }

/-- The parse of reportW1. -/
def parsedW1 : Parsed :=
  { fileName := "a.pdf", pages := parsePages 0 pagesW1
    counters := countersOf (parsePages 0 pagesW1), processingTime := 0 }

/-- A document list with one completed and one failed document. -/
def docsW1 : List DocState :=
  [{ status := "completed", results := some parsedW1, error := none },
   { status := "error", results := none, error := some "boom" }]

/-- The parse of reportMismatch. -/
def parsedMismatch : Parsed :=
  { fileName := "mismatch.pdf", pages := parsePages 0 [pageMismatch]
    counters := countersOf (parsePages 0 [pageMismatch]), processingTime := 0 }

/-- One old-format file body: a single page keyed page_1 with one
signature entry. -/
def fdW2 : List (ℕ × OldPage) :=
  [(1, { page_size := some { width := 10, height := 10 }
         annotations := some [{ idKey := "s1"
                                value := { category := "signature"
                                           bbox := { x := 1, y := 1, width := 2, height := 2 }
                                           area := 4 } }] })]

/-- One old-format JSON object. -/
def oldW2 : OldJson := [("old.pdf", fdW2)]

/-- The backend-format report convertOldFormat produces from oldW2. -/
def repW2 : BackendReport :=
  { document_name := some "old.pdf"
    total_pages := ((List.insertionSort (fun a b => a.1 ≤ b.1) fdW2).length : Int)
    pages := some (convertPages 0 (List.insertionSort (fun a b => a.1 ≤ b.1) fdW2))
    processing_time := 0 }

/-- The parse of reportUnknown. -/
def parsedUnknown : Parsed :=
  { fileName := "unknown.pdf", pages := parsePages 0 [pageUnknown]
    counters := countersOf (parsePages 0 [pageUnknown]), processingTime := 0 }

/-- The initial visibility toggles of the viewer (all categories on). -/
def allVisible : VisibleToggles :=
  { qr := true, signature := true, stamp := true }

/-- A concrete page size (50 x 25 points). -/
def psW4 : PageSize := { width := 50, height := 25 }

/-- A concrete bounding box. -/
def bW4 : BBox := { x := 2, y := 3, width := 4, height := 5 }

/-- A stamp annotation with confidence 0.75. -/
def annW5 : BackendAnn :=
  { id := "det_1", category := "stamp"
    bbox := { x := 0, y := 0, width := 1, height := 1 }
    confidence := 3 / 4, area := none }

/-- A single backend page carrying annW5. -/
def pagesW5 : List BackendPage :=
  [{ page_number := 1, page_size := some { width := 10, height := 10 }
     annotations := some [annW5] }]

/-- A backend report over pagesW5. -/
def reportW5 : BackendReport :=
  { document_name := some "w5.pdf", total_pages := 1
    pages := some pagesW5, processing_time := 0 }

/-- A live scan record owned by user 3. -/
def recW6 : ScanRecord :=
  { id := 11, owner_id := 3, document_name := "a.pdf", scan_date := 100
    expires_at := 200, total_pages := 2, qr_count := 1, signature_count := 0
    stamp_count := 0, artifact_reference := "uploads/a.pdf" }

/-- The owner of recW6 as a non-admin caller. -/
def callerW6 : Caller := { userId := some 3, isAdmin := false }

/-- A scan record whose expires_at (90) is already in the past at
time 120. -/
def recExpired : ScanRecord :=
  { id := 12, owner_id := 3, document_name := "b.pdf", scan_date := 50
    expires_at := 90, total_pages := 1, qr_count := 0, signature_count := 1
    stamp_count := 0, artifact_reference := "uploads/b.pdf" }

/-- An arbitrary parsed result used as a successful outcome. -/
def parsedW8 : Parsed :=
  { fileName := "w8.pdf", pages := []
    counters := { qr := 0, signatures := 0, stamps := 0 }, processingTime := 0 }

/-- Outcomes of a two-document batch: the first fails, the second
succeeds. -/
def outsW8 : List (Except String Parsed) :=
  [Except.error "Backend error: 500", Except.ok parsedW8]

/-- The characters of a protocol-less URL. -/
def exampleChars : List Char := "example.com".toList

/-! ## Helper lemmas: counters -/

theorem counterStep_foldl (items : List ParsedItem) (acc : Counters) :
    items.foldl counterStep acc =
      { qr := acc.qr + items.countP (fun it => it.category == "qr")
        signatures := acc.signatures + items.countP (fun it => it.category == "signature")
        stamps := acc.stamps + items.countP (fun it => it.category == "stamp") } := by
  induction items generalizing acc with
  | nil => simp
  | cons it rest ih =>
      rw [List.foldl_cons, ih]
      unfold counterStep
      by_cases h1 : it.category = "qr"
      · simp [h1, List.countP_cons]
        omega
      · by_cases h2 : it.category = "signature"
        · simp [h1, h2, List.countP_cons]
          omega
        · by_cases h3 : it.category = "stamp"
          · simp [h1, h2, h3, List.countP_cons]
            omega
          · simp [h1, h2, h3, List.countP_cons]

theorem countersOf_foldl (pages : List ParsedPage) (acc : Counters) :
    pages.foldl (fun acc p => p.items.foldl counterStep acc) acc =
      { qr := acc.qr + (pages.map (fun p => p.items.countP (fun it => it.category == "qr"))).sum
        signatures := acc.signatures +
          (pages.map (fun p => p.items.countP (fun it => it.category == "signature"))).sum
        stamps := acc.stamps +
          (pages.map (fun p => p.items.countP (fun it => it.category == "stamp"))).sum } := by
  induction pages generalizing acc with
  | nil => simp
  | cons p rest ih =>
      rw [List.foldl_cons, ih, counterStep_foldl]
      simp
      omega

/-- The counters of parseBackend count exactly the items of the three
known categories, summed over the parsed pages. -/
theorem countersOf_spec (pages : List ParsedPage) :
    countersOf pages =
      { qr := (pages.map (fun p => p.items.countP (fun it => it.category == "qr"))).sum
        signatures := (pages.map (fun p => p.items.countP (fun it => it.category == "signature"))).sum
        stamps := (pages.map (fun p => p.items.countP (fun it => it.category == "stamp"))).sum } := by
  rw [countersOf, countersOf_foldl]
  simp

theorem parsePage_countP (c : String) (idx : ℕ) (page : BackendPage) :
    (parsePage idx page).items.countP (fun it => it.category == c) =
      annCount c (page.annotations.getD []) := by
  simp [parsePage, annCount, List.countP_map, Function.comp_def, parseAnn]

theorem parsePages_countP_sum (c : String) (idx : ℕ) (ps : List BackendPage) :
    ((parsePages idx ps).map (fun p => p.items.countP (fun it => it.category == c))).sum =
      (ps.map (fun p => annCount c (p.annotations.getD []))).sum := by
  induction ps generalizing idx with
  | nil => rfl
  | cons p rest ih => simp [parsePages, parsePage_countP, ih]

/-! ## Helper lemmas: totalStats -/

theorem totalStats_foldl_qr (docs : List DocState) (acc : TotalStats) :
    (docs.foldl totalStatsStep acc).qr = acc.qr + (docs.map (docCounter Counters.qr)).sum := by
  induction docs generalizing acc with
  | nil => simp
  | cons d rest ih =>
      rw [List.foldl_cons, ih]
      cases hd : d.results <;> simp [totalStatsStep, docCounter, hd] <;> omega

theorem totalStats_foldl_signatures (docs : List DocState) (acc : TotalStats) :
    (docs.foldl totalStatsStep acc).signatures =
      acc.signatures + (docs.map (docCounter Counters.signatures)).sum := by
  induction docs generalizing acc with
  | nil => simp
  | cons d rest ih =>
      rw [List.foldl_cons, ih]
      cases hd : d.results <;> simp [totalStatsStep, docCounter, hd] <;> omega

theorem totalStats_foldl_stamps (docs : List DocState) (acc : TotalStats) :
    (docs.foldl totalStatsStep acc).stamps =
      acc.stamps + (docs.map (docCounter Counters.stamps)).sum := by
  induction docs generalizing acc with
  | nil => simp
  | cons d rest ih =>
      rw [List.foldl_cons, ih]
      cases hd : d.results <;> simp [totalStatsStep, docCounter, hd] <;> omega

theorem docCounter_sum_eq_completed (f : Counters → ℕ) (docs : List DocState)
    (h : ∀ d ∈ docs, d.results.isSome ↔ d.status = "completed") :
    (docs.map (docCounter f)).sum = completedCounterSum f docs := by
  induction docs with
  | nil => rfl
  | cons d rest ih =>
      have hd := h d (List.mem_cons_self d rest)
      have hrest : ∀ x ∈ rest, x.results.isSome ↔ x.status = "completed" :=
        fun x hx => h x (List.mem_cons_of_mem d hx)
      cases hres : d.results with
      | some r =>
          have hstat : d.status = "completed" := by
            have := hd.mp
            simp [hres] at this
            exact this
          simp [completedCounterSum, List.filter_cons, hstat, docCounter, hres] at ih ⊢
          exact ih hrest
      | none =>
          have hstat : d.status ≠ "completed" := by
            intro hc
            have := hd.mpr hc
            simp [hres] at this
          simp [completedCounterSum, List.filter_cons, hstat, docCounter, hres] at ih ⊢
          exact ih hrest

/-! ## Helper lemmas: parsePages and convertPages -/

theorem length_parsePages (idx : ℕ) (ps : List BackendPage) :
    (parsePages idx ps).length = ps.length := by
  induction ps generalizing idx with
  | nil => rfl
  | cons p rest ih => simp [parsePages, ih]

theorem parsePages_get_index (ps : List BackendPage) :
    ∀ (idx i : ℕ) (h : i < (parsePages idx ps).length),
      ((parsePages idx ps).get ⟨i, h⟩).index = idx + i := by
  induction ps with
  | nil => intro idx i h; simp [parsePages] at h
  | cons p rest ih =>
      intro idx i h
      cases i with
      | zero => simp [parsePages, parsePage]
      | succ j =>
          have hj : j < (parsePages (idx + 1) rest).length := by
            simpa [parsePages] using Nat.lt_of_succ_lt_succ (by simpa [parsePages] using h)
          have := ih (idx + 1) j hj
          simp [parsePages, List.get_cons_succ] at this ⊢
          omega

theorem parsePages_cats (idx : ℕ) (ps : List BackendPage) :
    (parsePages idx ps).map (fun p => p.items.map (fun it => it.category)) =
      ps.map (fun p => (p.annotations.getD []).map (fun a => a.category)) := by
  induction ps generalizing idx with
  | nil => rfl
  | cons p rest ih =>
      simp [parsePages, parsePage, ih, List.map_map, Function.comp_def, parseAnn]

theorem parsePages_item_lens (idx : ℕ) (ps : List BackendPage) :
    (parsePages idx ps).map (fun p => p.items.length) =
      ps.map (fun p => (p.annotations.getD []).length) := by
  induction ps generalizing idx with
  | nil => rfl
  | cons p rest ih => simp [parsePages, parsePage, ih]

theorem parsePages_mem (idx : ℕ) (ps : List BackendPage) :
    ∀ p ∈ parsePages idx ps, ∃ orig ∈ ps,
      p.items = (orig.annotations.getD []).map parseAnn := by
  induction ps generalizing idx with
  | nil => intro p hp; simp [parsePages] at hp
  | cons q rest ih =>
      intro p hp
      rw [parsePages] at hp
      rcases List.mem_cons.mp hp with h | h
      · exact ⟨q, List.mem_cons_self q rest, by rw [h]; simp [parsePage]⟩
      · obtain ⟨orig, ho, he⟩ := ih (idx + 1) p h
        exact ⟨orig, List.mem_cons_of_mem q ho, he⟩

theorem length_convertPages (idx : ℕ) (l : List (ℕ × OldPage)) :
    (convertPages idx l).length = l.length := by
  induction l generalizing idx with
  | nil => rfl
  | cons p rest ih => simp [convertPages, ih]

theorem convertPages_get_number (l : List (ℕ × OldPage)) :
    ∀ (idx i : ℕ) (h : i < (convertPages idx l).length),
      ((convertPages idx l).get ⟨i, h⟩).page_number = (idx : Int) + i + 1 := by
  induction l with
  | nil => intro idx i h; simp [convertPages] at h
  | cons p rest ih =>
      intro idx i h
      cases i with
      | zero => simp [convertPages]
      | succ j =>
          have hj : j < (convertPages (idx + 1) rest).length := by
            have := h
            simp [convertPages] at this
            simpa [length_convertPages] using Nat.lt_of_succ_lt_succ
              (by simpa [convertPages, length_convertPages] using h)
          have hrec := ih (idx + 1) j hj
          simp [convertPages, List.get_cons_succ] at hrec ⊢
          rw [hrec]
          ring

theorem convertPages_mem_confidence (l : List (ℕ × OldPage)) :
    ∀ (idx : ℕ), ∀ p ∈ convertPages idx l, ∀ a ∈ p.annotations.getD [],
      a.confidence = 0.95 := by
  induction l with
  | nil => intro idx p hp; simp [convertPages] at hp
  | cons q rest ih =>
      intro idx p hp
      rw [convertPages] at hp
      rcases List.mem_cons.mp hp with h | h
      · intro a ha
        rw [h] at ha
        simp at ha
        obtain ⟨e, _, he⟩ := ha
        rw [← he]
      · exact ih (idx + 1) p h

/-! ## Helper lemmas: inversion of the parsers -/

theorem parseBackend_eq (json : BackendReport) (r : Parsed)
    (hp : parseBackend json = some r) :
    ∃ dn ps, json.document_name = some dn ∧ json.pages = some ps ∧ dn ≠ "" ∧
      r = { fileName := dn
            pages := parsePages 0 ps
            counters := countersOf (parsePages 0 ps)
            processingTime := json.processing_time } := by
  unfold parseBackend at hp
  rcases hn : json.document_name with _ | dn
  · rw [hn] at hp; simp at hp
  rcases hps : json.pages with _ | ps
  · rw [hn, hps] at hp; simp at hp
  rw [hn, hps] at hp
  by_cases hdn : dn = ""
  · simp [hdn] at hp
  refine ⟨dn, ps, rfl, rfl, hdn, ?_⟩
  simp [hdn] at hp
  exact hp.symm

theorem convertOldFormat_eq (json : OldJson) (rep : BackendReport)
    (h : convertOldFormat json = some rep) :
    ∃ fileKey fileData rest, json = (fileKey, fileData) :: rest ∧ fileKey ≠ "" ∧
      rep = { document_name := some fileKey
              total_pages := ((List.insertionSort (fun a b => a.1 ≤ b.1) fileData).length : Int)
              pages := some (convertPages 0 (List.insertionSort (fun a b => a.1 ≤ b.1) fileData))
              processing_time := 0 } := by
  cases json with
  | nil => simp [convertOldFormat] at h
  | cons hd tl =>
      obtain ⟨fileKey, fileData⟩ := hd
      by_cases hk : fileKey = ""
      · simp [convertOldFormat, hk] at h
      · refine ⟨fileKey, fileData, tl, rfl, hk, ?_⟩
        simp [convertOldFormat, hk] at h
        simpa [List.length_insertionSort] using h.symm

/-! ## Helper lemmas: the multi-document loop -/

theorem foldl_set_range {α : Type} (f : ℕ → α) :
    ∀ (n : ℕ) (docs : List α), n ≤ docs.length →
      (List.range n).foldl (fun ds i => ds.set i (f i)) docs =
        (List.range n).map f ++ docs.drop n := by
  intro n
  induction n with
  | zero => intro docs _; simp
  | succ n ih =>
      intro docs h
      rw [List.range_succ, List.foldl_append, List.foldl_cons, List.foldl_nil,
        ih docs (Nat.le_of_succ_le h)]
      have hlen : ((List.range n).map f).length = n := by simp
      rw [List.set_append, if_neg (by omega)]
      have hd : docs.drop n ≠ [] := by
        intro hc
        have : docs.length - n = 0 := by
          simpa using congrArg List.length hc
        omega
      obtain ⟨d, rest, hrest⟩ := List.exists_cons_of_ne_nil hd
      have htail : rest = docs.drop (n + 1) := by
        have := List.tail_drop docs n
        rw [hrest] at this
        simpa using this
      rw [hrest]
      simp [hlen, List.range_succ, htail]

theorem range_map_getD {α β : Type} (l : List α) (f : α → β) (d : α) :
    (List.range l.length).map (fun i => f (l.getD i d)) = l.map f := by
  induction l with
  | nil => rfl
  | cons x xs ih =>
      rw [List.length_cons, List.range_succ_eq_map, List.map_cons, List.map_map]
      simp only [Function.comp_def, List.getD_cons_zero, List.getD_cons_succ]
      rw [List.map_cons]
      exact congrArg (f x :: ·) ih

theorem multiLoop_eq (outs : List (Except String Parsed)) (docs : List DocState)
    (h : docs.length = outs.length) :
    multiLoop outs docs = outs.map processOutcome := by
  unfold multiLoop
  rw [foldl_set_range (fun i => processOutcome (outs.getD i (Except.error ""))) outs.length docs
    (by omega)]
  have hdrop : docs.drop outs.length = [] := by
    rw [← h]
    exact List.drop_length docs
  rw [hdrop, List.append_nil]
  exact range_map_getD outs processOutcome (Except.error "")

theorem processOutcome_partition (outs : List (Except String Parsed)) :
    completedCount (outs.map processOutcome) + errorCount (outs.map processOutcome) =
      outs.length := by
  induction outs with
  | nil => rfl
  | cons o rest ih =>
      cases o <;> simp [completedCount, errorCount, processOutcome, List.filter_cons]
        at ih ⊢ <;> omega

/-! ## Claims -/

/-- Claim C1: for every backend detection response accepted by
parseBackend, the derived counters (qr, signatures, stamps) each equal
the number of detections of that category summed over all pages of the
report, computed from the per-page annotation lists themselves; and
the multi-document totals are recomputed by summing each completed
document's counters. -/
theorem C1_counters_derived (json : BackendReport) (r : Parsed)
    (hp : parseBackend json = some r) (docs : List DocState)
    (hdocs : ∀ d ∈ docs, d.results.isSome ↔ d.status = "completed") :
    (r.counters.qr = sumCat "qr" json ∧
     r.counters.signatures = sumCat "signature" json ∧
     r.counters.stamps = sumCat "stamp" json) ∧
    ((totalStats docs).qr = completedCounterSum Counters.qr docs ∧
     (totalStats docs).signatures = completedCounterSum Counters.signatures docs ∧
     (totalStats docs).stamps = completedCounterSum Counters.stamps docs) := by
  obtain ⟨dn, ps, hn, hps, hdn, hr⟩ := parseBackend_eq json r hp
  constructor
  · subst hr
    refine ⟨?_, ?_, ?_⟩ <;>
      simp [countersOf_spec, sumCat, hps, parsePages_countP_sum]
  · refine ⟨?_, ?_, ?_⟩
    · rw [totalStats, totalStats_foldl_qr, docCounter_sum_eq_completed _ _ hdocs]
      simp
    · rw [totalStats, totalStats_foldl_signatures,
        docCounter_sum_eq_completed _ _ hdocs]
      simp
    · rw [totalStats, totalStats_foldl_stamps, docCounter_sum_eq_completed _ _ hdocs]
      simp

/-- Witness for C1 at a concrete report and document list. -/
theorem C1_counters_derived_witness :
    (parseBackend reportW1 = some parsedW1 ∧
     (∀ d ∈ docsW1, d.results.isSome ↔ d.status = "completed")) ∧
    (parsedW1.counters.qr = sumCat "qr" reportW1 ∧
     (totalStats docsW1).qr = completedCounterSum Counters.qr docsW1) := by
  have h1 : parseBackend reportW1 = some parsedW1 := rfl
  have h2 : ∀ d ∈ docsW1, d.results.isSome ↔ d.status = "completed" := by
    intro d hd
    rcases List.mem_cons.mp hd with h | h
    · subst h; simp [docsW1]
    · simp [docsW1] at h
      subst h; simp
  exact ⟨⟨h1, h2⟩,
    ⟨(C1_counters_derived reportW1 parsedW1 h1 docsW1 h2).1.1,
     (C1_counters_derived reportW1 parsedW1 h1 docsW1 h2).2.1⟩⟩

/-- Claim C2 counterexample: parseBackend accepts a report whose
total_pages field (2) disagrees with the length of its pages array
(1), whose only page carries page_number 7 rather than 1, and the
displayed page count is 1, not total_pages. -/
theorem C2_counterexample :
    (parseBackend reportMismatch).isSome = true ∧
    reportMismatch.total_pages = 2 ∧
    (parseBackend reportMismatch).map displayedPageCount = some 1 ∧
    reportMismatch.pages = some [pageMismatch] ∧
    pageMismatch.page_number = 7 := by
  refine ⟨rfl, rfl, rfl, rfl, rfl⟩

/-- Claim C2 amended: convertOldFormat output satisfies the invariant
(total_pages equals the number of pages and page i carries page_number
i+1); parseBackend performs no such validation — it accepts any report
with a truthy document_name and a pages array, keeps the pages in
the order given (the parsed page at position i has index i), and the
displayed page count is the number of parsed pages, not the
total_pages field. -/
theorem C2_pages_ordering :
    (∀ (old : OldJson) (rep : BackendReport), convertOldFormat old = some rep →
       rep.total_pages = ((rep.pages.getD []).length : Int) ∧
       ∀ (i : ℕ) (h : i < (rep.pages.getD []).length),
         ((rep.pages.getD []).get ⟨i, h⟩).page_number = (i : Int) + 1) ∧
    (∀ (json : BackendReport) (r : Parsed), parseBackend json = some r →
       displayedPageCount r = (json.pages.getD []).length ∧
       ∀ (i : ℕ) (h : i < r.pages.length), (r.pages.get ⟨i, h⟩).index = i) := by
  constructor
  · intro old rep hconv
    obtain ⟨fk, fd, rest, hj, hfk, hrep⟩ := convertOldFormat_eq old rep hconv
    subst hrep
    constructor
    · simp [length_convertPages]
    · intro i h
      have := convertPages_get_number (List.insertionSort (fun a b => a.1 ≤ b.1) fd) 0 i
        (by simpa using h)
      simpa using this
  · intro json r hp
    obtain ⟨dn, ps, hn, hps, hdn, hr⟩ := parseBackend_eq json r hp
    subst hr
    constructor
    · simp [displayedPageCount, length_parsePages, hps]
    · intro i h
      have := parsePages_get_index ps 0 i (by simpa using h)
      simpa using this

/-- Witness for C2's amended claim at a concrete old-format object and
at the mismatched report. -/
theorem C2_pages_ordering_witness :
    (convertOldFormat oldW2 = some repW2 ∧
     repW2.total_pages = ((repW2.pages.getD []).length : Int)) ∧
    (parseBackend reportMismatch = some parsedMismatch ∧
     displayedPageCount parsedMismatch = ((reportMismatch.pages).getD []).length) := by
  have h1 : convertOldFormat oldW2 = some repW2 := rfl
  have h2 : parseBackend reportMismatch = some parsedMismatch := rfl
  exact ⟨⟨h1, (C2_pages_ordering.1 oldW2 repW2 h1).1⟩,
    ⟨h2, (C2_pages_ordering.2 reportMismatch parsedMismatch h2).1⟩⟩

/-- Claim C3 counterexample: a detection of the unknown category
watermark is not rejected — parseBackend accepts the report, keeps the
item with its category verbatim in the parsed pages, the counters
silently ignore it, the viewer shows it (the overlay filter keeps it
under the initial toggles) with the fallback orange color. -/
theorem C3_counterexample :
    (parseBackend reportUnknown).map
        (fun r => r.pages.map (fun p => p.items.map (fun it => it.category))) =
      some [["watermark"]] ∧
    (parseBackend reportUnknown).map (fun r => r.counters) =
      some { qr := 0, signatures := 0, stamps := 0 } ∧
    categoryColor "watermark" = "orange" ∧
    overlayShown allVisible "watermark" = true := by
  refine ⟨rfl, rfl, rfl, rfl⟩

/-- Claim C3 amended: the category set is not enforced as closed —
parseBackend passes every annotation category through to the report
verbatim; only the counters are restricted to the three known
categories; the viewer displays unknown-category items (the visibility
filter hides an item only when its category toggle is explicitly
false, and unknown categories have no toggle) with the fallback orange
color from categoryColor. -/
theorem C3_category_passthrough :
    (∀ (json : BackendReport) (r : Parsed), parseBackend json = some r →
       r.pages.map (fun p => p.items.map (fun it => it.category)) =
         (json.pages.getD []).map (fun p =>
           (p.annotations.getD []).map (fun a => a.category))) ∧
    (∀ pages : List ParsedPage, countersOf pages =
       { qr := (pages.map (fun p => p.items.countP (fun it => it.category == "qr"))).sum
         signatures :=
           (pages.map (fun p => p.items.countP (fun it => it.category == "signature"))).sum
         stamps :=
           (pages.map (fun p => p.items.countP (fun it => it.category == "stamp"))).sum }) ∧
    (∀ c : String, c ≠ "qr" → c ≠ "signature" → categoryColor c = "orange") ∧
    (∀ (v : VisibleToggles) (c : String), visibleLookup v c = none →
       overlayShown v c = true) := by
  refine ⟨?_, countersOf_spec, ?_, ?_⟩
  · intro json r hp
    obtain ⟨dn, ps, hn, hps, hdn, hr⟩ := parseBackend_eq json r hp
    subst hr
    simp [hps, parsePages_cats]
  · intro c h1 h2
    simp [categoryColor, h1, h2]
  · intro v c h
    simp [overlayShown, h]

/-- Witness for C3's amended claim at the watermark report and a
category outside the closed set. -/
theorem C3_category_passthrough_witness :
    (parseBackend reportUnknown = some parsedUnknown ∧
     "watermark" ≠ "qr" ∧ "watermark" ≠ "signature" ∧
     visibleLookup allVisible "watermark" = none) ∧
    (parsedUnknown.pages.map (fun p => p.items.map (fun it => it.category)) =
       (reportUnknown.pages.getD []).map (fun p =>
         (p.annotations.getD []).map (fun a => a.category)) ∧
     categoryColor "watermark" = "orange" ∧
     overlayShown allVisible "watermark" = true) := by
  have h1 : parseBackend reportUnknown = some parsedUnknown := rfl
  have h2 : ("watermark" : String) ≠ "qr" := by decide
  have h3 : ("watermark" : String) ≠ "signature" := by decide
  have h4 : visibleLookup allVisible "watermark" = none := rfl
  exact ⟨⟨h1, h2, h3, h4⟩,
    ⟨C3_category_passthrough.1 reportUnknown parsedUnknown h1,
     C3_category_passthrough.2.2.1 "watermark" h2 h3,
     C3_category_passthrough.2.2.2 allVisible "watermark" h4⟩⟩

/-- Claim C4: the coordinate mapping between logical point space and
the rendered resolution is a pure per-axis linear transform — the
displayed box is (x * scaleX, y * scaleY, width * scaleX, height *
scaleY) with scaleX = renderedWidth / pageSize.width and scaleY =
renderedHeight / pageSize.height — and applying the transform followed
by its inverse with the same scale factors reproduces the original box
exactly (the rational model of the floating-point computation). -/
theorem C4_overlay_linear (cw : ℚ) (ps : PageSize) (b : BBox)
    (hcw : 0 < cw) (hw : 0 < ps.width) (hh : 0 < ps.height) :
    scaleX cw ps = cw / ps.width ∧
    scaleY cw ps = renderedHeight cw ps / ps.height ∧
    overlayBox cw ps b =
      { x := b.x * (cw / ps.width)
        y := b.y * (renderedHeight cw ps / ps.height)
        width := b.width * (cw / ps.width)
        height := b.height * (renderedHeight cw ps / ps.height) } ∧
    inverseBox (scaleX cw ps) (scaleY cw ps) (overlayBox cw ps b) = b := by
  have hcw0 : cw ≠ 0 := ne_of_gt hcw
  have hw0 : ps.width ≠ 0 := ne_of_gt hw
  have hh0 : ps.height ≠ 0 := ne_of_gt hh
  have hrh : renderedHeight cw ps = cw * ps.height / ps.width := by
    rw [renderedHeight, if_pos]
    exact ⟨hcw0, hw0, hh0⟩
  have hrh0 : renderedHeight cw ps ≠ 0 := by
    rw [hrh]
    exact div_ne_zero (mul_ne_zero hcw0 hh0) hw0
  have hsx : scaleX cw ps = cw / ps.width := by
    rw [scaleX, if_pos]
    exact ⟨hcw0, hw0⟩
  have hsy : scaleY cw ps = renderedHeight cw ps / ps.height := by
    rw [scaleY, if_pos]
    exact ⟨hrh0, hh0⟩
  refine ⟨hsx, hsy, ?_, ?_⟩
  · rw [overlayBox, hsx, hsy]
  · have hsx0 : scaleX cw ps ≠ 0 := by
      rw [hsx]
      exact div_ne_zero hcw0 hw0
    have hsy0 : scaleY cw ps ≠ 0 := by
      rw [hsy]
      exact div_ne_zero hrh0 hh0
    cases b with
    | mk x0 y0 w0 h0 =>
        simp only [overlayBox, inverseBox, BBox.mk.injEq]
        refine ⟨?_, ?_, ?_, ?_⟩ <;> exact mul_div_cancel_right₀ _ (by assumption)

/-- Witness for C4 at a concrete container width, page size and box. -/
theorem C4_overlay_linear_witness :
    ((0 : ℚ) < 100 ∧ 0 < psW4.width ∧ 0 < psW4.height) ∧
    inverseBox (scaleX 100 psW4) (scaleY 100 psW4) (overlayBox 100 psW4 bW4) = bW4 := by
  have h1 : (0 : ℚ) < 100 := by norm_num
  have h2 : (0 : ℚ) < psW4.width := by norm_num [psW4]
  have h3 : (0 : ℚ) < psW4.height := by norm_num [psW4]
  exact ⟨⟨h1, h2, h3⟩, (C4_overlay_linear 100 psW4 bW4 h1 h2 h3).2.2.2⟩

/-- Claim C5: under the detector contract (the backend filters below
the threshold itself and emits confidences in [0,1]), every item in a
result parsed by parseBackend has confidence in [0,1] and at least the
threshold; parseBackend itself never filters (each page keeps as many
items as the backend sent annotations); and every annotation produced
by convertOldFormat carries the fixed confidence 0.95, which is in
[0,1] and at least the app's requested threshold 0.5. -/
theorem C5_confidence_threshold (thr : ℚ) (json : BackendReport) (r : Parsed)
    (hdet : reportFromDetector thr json) (hp : parseBackend json = some r) :
    (∀ p ∈ r.pages, ∀ it ∈ p.items,
       0 ≤ it.confidence ∧ it.confidence ≤ 1 ∧ thr ≤ it.confidence) ∧
    (r.pages.map (fun p => p.items.length) =
       (json.pages.getD []).map (fun p => (p.annotations.getD []).length)) ∧
    (∀ (old : OldJson) (rep : BackendReport), convertOldFormat old = some rep →
       ∀ p ∈ rep.pages.getD [], ∀ a ∈ p.annotations.getD [],
         a.confidence = 0.95 ∧ 0 ≤ a.confidence ∧ a.confidence ≤ 1 ∧
           (1 / 2 : ℚ) ≤ a.confidence) := by
  obtain ⟨dn, ps, hn, hps, hdn, hr⟩ := parseBackend_eq json r hp
  refine ⟨?_, ?_, ?_⟩
  · intro p hpp it hit
    rw [hr] at hpp
    simp only at hpp
    obtain ⟨orig, ho, he⟩ := parsePages_mem 0 ps p hpp
    rw [he] at hit
    obtain ⟨a, ha, hae⟩ := List.mem_map.mp hit
    have hb := hdet orig (by simpa [hps] using ho) a ha
    rw [← hae]
    simpa [parseAnn] using hb
  · rw [hr]
    simp [hps, parsePages_item_lens]
  · intro old rep hconv p hpp a ha
    obtain ⟨fk, fd, rest2, hj, hfk, hrep⟩ := convertOldFormat_eq old rep hconv
    rw [hrep] at hpp
    simp only [Option.getD_some] at hpp
    have hc := convertPages_mem_confidence _ 0 p hpp a ha
    refine ⟨hc, ?_, ?_, ?_⟩ <;> rw [hc] <;> norm_num

/-- Witness for C5 at threshold 0.5 and a concrete well-formed report
and old-format object. -/
theorem C5_confidence_threshold_witness :
    (reportFromDetector (1 / 2) reportW5 ∧
     parseBackend reportW5 = some
       { fileName := "w5.pdf", pages := parsePages 0 pagesW5
         counters := countersOf (parsePages 0 pagesW5), processingTime := 0 } ∧
     convertOldFormat oldW2 = some repW2) ∧
    ((parsePages 0 pagesW5).map (fun p => p.items.length) =
       (reportW5.pages.getD []).map (fun p => (p.annotations.getD []).length)) := by
  have h1 : reportFromDetector (1 / 2) reportW5 := by
    intro p hp a ha
    simp [reportW5, pagesW5] at hp
    subst hp
    simp [annW5] at ha
    subst ha
    norm_num [annW5]
  have h2 : parseBackend reportW5 = some
      { fileName := "w5.pdf", pages := parsePages 0 pagesW5
        counters := countersOf (parsePages 0 pagesW5), processingTime := 0 } := rfl
  exact ⟨⟨h1, h2, rfl⟩,
    (C5_confidence_threshold (1 / 2) reportW5 _ h1 h2).2.1⟩

/-- Claim C6: delete_scan is idempotent — deleting a present, visible
record succeeds and removes it, and a second delete of the same id
yields the not found signal as an ordinary value of the total
function, never any other error class. -/
theorem C6_delete_idempotent (caller : Caller) (ledger : List ScanRecord)
    (r : ScanRecord) (hmem : r ∈ ledger) (hvis : visibleTo caller r = true) :
    ∃ rest, delete_scan caller ledger r.id = Except.ok rest ∧
      (∀ s ∈ rest, s.id ≠ r.id) ∧
      delete_scan caller rest r.id = Except.error "not found" := by
  rcases hf : ledger.find? (fun s => s.id == r.id && visibleTo caller s) with _ | s
  · exfalso
    have := List.find?_eq_none.mp hf r hmem
    simp [hvis] at this
  · refine ⟨ledger.filter (fun s => !(s.id == r.id)), ?_, ?_, ?_⟩
    · rw [delete_scan, hf]
    · intro s hs
      have := (List.mem_filter.mp hs).2
      simpa using this
    · rw [delete_scan]
      rw [List.find?_eq_none.mpr ?_]
      intro s hs
      have := (List.mem_filter.mp hs).2
      simp at this ⊢
      intro hc
      exact absurd hc this

/-- Witness for C6 at a concrete one-record ledger and its owner. -/
theorem C6_delete_idempotent_witness :
    (recW6 ∈ [recW6] ∧ visibleTo callerW6 recW6 = true) ∧
    (delete_scan callerW6 [recW6] recW6.id = Except.ok [] ∧
     delete_scan callerW6 [] recW6.id = Except.error "not found") := by
  have h1 : recW6 ∈ [recW6] := List.mem_singleton.mpr rfl
  have h2 : visibleTo callerW6 recW6 = true := rfl
  obtain ⟨rest, hok, hempty, hsecond⟩ := C6_delete_idempotent callerW6 [recW6] recW6 h1 h2
  have hrest : rest = [] := by
    have : delete_scan callerW6 [recW6] recW6.id = Except.ok [] := rfl
    rw [this] at hok
    exact (Except.ok.injEq _ _ ▸ hok.symm :)
  refine ⟨⟨h1, h2⟩, rfl, ?_⟩
  rw [← hrest]
  exact hsecond

/-- Claim C7: a ScanRecord whose expires_at is in the past is
unreachable through get_scan and list_scans even before the cleanup
sweep removes it — get_scan never returns it (nor any expired record)
and it never appears in list_scans. -/
theorem C7_expired_unreachable (now : ℤ) (caller : Caller)
    (ledger : List ScanRecord) (r : ScanRecord)
    (hmem : r ∈ ledger) (hexp : r.expires_at < now) :
    get_scan now caller ledger r.id ≠ some r ∧
    r ∉ list_scans now caller ledger ∧
    (∀ s, get_scan now caller ledger r.id = some s → now < s.expires_at) := by
  refine ⟨?_, ?_, ?_⟩
  · intro h
    have := List.find?_some h
    simp [isLive] at this
    omega
  · intro h
    rw [list_scans] at h
    have hmem2 : r ∈ ledger.filter (fun s => visibleTo caller s && isLive now s) :=
      (List.Perm.mem_iff (List.perm_insertionSort _ _)).mp h
    have := (List.mem_filter.mp hmem2).2
    simp [isLive] at this
    omega
  · intro s hs
    have := List.find?_some hs
    simp [isLive] at this
    omega

/-- Witness for C7 at a concrete ledger holding one live and one
expired record, read at time 120. -/
theorem C7_expired_unreachable_witness :
    (recExpired ∈ [recW6, recExpired] ∧ recExpired.expires_at < 120) ∧
    (get_scan 120 callerW6 [recW6, recExpired] recExpired.id ≠ some recExpired ∧
     recExpired ∉ list_scans 120 callerW6 [recW6, recExpired]) := by
  have h1 : recExpired ∈ [recW6, recExpired] := by
    exact List.mem_cons_of_mem _ (List.mem_singleton.mpr rfl)
  have h2 : recExpired.expires_at < 120 := by norm_num [recExpired]
  have h := C7_expired_unreachable 120 callerW6 [recW6, recExpired] recExpired h1 h2
  exact ⟨⟨h1, h2⟩, h.1, h.2.1⟩

/-- Claim C8: the multi-document loop processes the submitted
documents sequentially and independently — the final state maps each
document to the outcome of its own attempt (an error while processing
document i sets only that document's status to error with its message,
every later document is still processed), the completed and error
tallies partition the submitted documents, and the uploading flag is
cleared regardless of how many documents failed. -/
theorem C8_sequential_isolation (outs : List (Except String Parsed))
    (hne : outs ≠ []) (docs : List DocState) (upl : Bool)
    (hrun : analyzeMultipleDocuments outs = some (docs, upl)) :
    upl = false ∧
    docs = outs.map processOutcome ∧
    (∀ m : String, processOutcome (Except.error m) =
       { status := "error", results := none, error := some m }) ∧
    (∀ r : Parsed, processOutcome (Except.ok r) =
       { status := "completed", results := some r, error := none }) ∧
    completedCount docs + errorCount docs = docs.length ∧
    docs.length = outs.length := by
  rw [analyzeMultipleDocuments, if_neg (by simpa using hne)] at hrun
  have hdocs : docs = multiLoop outs (outs.map (fun _ => initialDoc)) := by
    have := congrArg (fun o => Option.map Prod.fst o) hrun
    simpa using this.symm
  have hupl : upl = false := by
    have := congrArg (fun o => Option.map Prod.snd o) hrun
    simpa using this.symm
  have hlen : (outs.map (fun _ => initialDoc)).length = outs.length := by simp
  have hmap : docs = outs.map processOutcome := by
    rw [hdocs, multiLoop_eq _ _ hlen]
  refine ⟨hupl, hmap, fun m => rfl, fun r => rfl, ?_, ?_⟩
  · rw [hmap]
    simpa using processOutcome_partition outs
  · rw [hmap]
    simp

/-- Witness for C8 at a two-document batch whose first document fails
and second succeeds. -/
theorem C8_sequential_isolation_witness :
    (outsW8 ≠ [] ∧
     analyzeMultipleDocuments outsW8 = some (outsW8.map processOutcome, false)) ∧
    (completedCount (outsW8.map processOutcome) +
       errorCount (outsW8.map processOutcome) =
       (outsW8.map processOutcome).length) := by
  have h1 : outsW8 ≠ [] := by simp [outsW8]
  have h2 : analyzeMultipleDocuments outsW8 = some (outsW8.map processOutcome, false) := rfl
  exact ⟨⟨h1, h2⟩,
    (C8_sequential_isolation outsW8 h1 (outsW8.map processOutcome) false h2).2.2.2.2.1⟩

/-- Claim C9: for a non-empty pages list the current page index stays
within bounds under every navigation operation (Prev, Next, the page
selector, the per-page buttons, the thumbnails), so the rendered page
number pageIndex + 1 stays within [1, number of pages]; Prev and Next
clamp at the ends and are disabled exactly there. -/
theorem C9_page_index_invariant (n i : ℕ) (op : NavOp)
    (hn : 0 < n) (hi : i < n) (hop : opValid n op) :
    navStep n i op < n ∧
    1 ≤ renderedPageNumber (navStep n i op) ∧
    renderedPageNumber (navStep n i op) ≤ n ∧
    (prevDisabled i = true ↔ i = 0) ∧
    (nextDisabled n i = true ↔ i = n - 1) := by
  have hstep : navStep n i op < n := by
    cases op <;> simp [navStep, opValid] at hop ⊢ <;> omega
  refine ⟨hstep, ?_, ?_, ?_, ?_⟩
  · simp [renderedPageNumber]
  · simp [renderedPageNumber]
    omega
  · simp [prevDisabled]
  · simp [nextDisabled]

/-- Witness for C9 at a three-page document on page 2 pressing Next. -/
theorem C9_page_index_invariant_witness :
    ((0 : ℕ) < 3 ∧ (1 : ℕ) < 3 ∧ opValid 3 NavOp.next) ∧
    (navStep 3 1 NavOp.next < 3 ∧ renderedPageNumber (navStep 3 1 NavOp.next) ≤ 3) := by
  have h1 : (0 : ℕ) < 3 := by decide
  have h2 : (1 : ℕ) < 3 := by decide
  have h3 : opValid 3 NavOp.next := trivial
  have h := C9_page_index_invariant 3 1 NavOp.next h1 h2 h3
  exact ⟨⟨h1, h2, h3⟩, h.1, h.2.2.1⟩

/-- Claim C10: ensureURLProtocol is total and idempotent — empty
(falsy) input yields the empty string, input already starting with
http:// or https:// is returned unchanged, anything else gets https://
prepended; hence every non-empty output starts with http:// or
https://, and applying the function twice equals applying it once. -/
theorem C10_ensureURLProtocol (url : List Char) :
    (url = [] → ensureURLProtocol url = []) ∧
    ((httpPre.isPrefixOf url || httpsPre.isPrefixOf url) = true → url ≠ [] →
       ensureURLProtocol url = url) ∧
    ((httpPre.isPrefixOf url || httpsPre.isPrefixOf url) = false → url ≠ [] →
       ensureURLProtocol url = httpsPre ++ url) ∧
    (ensureURLProtocol url ≠ [] →
       (httpPre.isPrefixOf (ensureURLProtocol url) ||
        httpsPre.isPrefixOf (ensureURLProtocol url)) = true) ∧
    ensureURLProtocol (ensureURLProtocol url) = ensureURLProtocol url := by
  have hpre : ∀ l : List Char, httpsPre.isPrefixOf (httpsPre ++ l) = true := by
    intro l
    rw [List.isPrefixOf_iff_prefix]
    exact List.prefix_append _ _
  by_cases h0 : url = []
  · subst h0
    refine ⟨fun _ => rfl, ?_, ?_, ?_, rfl⟩
    · intro _ hc
      exact absurd rfl hc
    · intro _ hc
      exact absurd rfl hc
    · intro hc
      exact absurd rfl hc
  · by_cases hp : (httpPre.isPrefixOf url || httpsPre.isPrefixOf url) = true
    · have he : ensureURLProtocol url = url := by
        rw [ensureURLProtocol, if_neg h0, if_pos hp]
      refine ⟨fun hc => absurd hc h0, fun _ _ => he, ?_, ?_, ?_⟩
      · intro hf _
        rw [hp] at hf
        cases hf
      · intro _
        rw [he]
        exact hp
      · rw [he, he]
    · have hp' : (httpPre.isPrefixOf url || httpsPre.isPrefixOf url) = false :=
        Bool.eq_false_iff.mpr hp
      have he : ensureURLProtocol url = httpsPre ++ url := by
        rw [ensureURLProtocol, if_neg h0, if_neg]
        simp [hp']
      have hne : httpsPre ++ url ≠ [] := by simp [httpsPre]
      refine ⟨fun hc => absurd hc h0, ?_, fun _ _ => he, ?_, ?_⟩
      · intro hc _
        rw [hp'] at hc
        cases hc
      · intro _
        rw [he]
        simp [hpre url]
      · rw [he, ensureURLProtocol, if_neg hne, if_pos (by simp [hpre url]), ← he]

/-- Witness for C10 at a concrete protocol-less URL string. -/
theorem C10_ensureURLProtocol_witness :
    ((httpPre.isPrefixOf exampleChars || httpsPre.isPrefixOf exampleChars) = false ∧
     exampleChars ≠ []) ∧
    (ensureURLProtocol exampleChars = httpsPre ++ exampleChars ∧
     ensureURLProtocol (ensureURLProtocol exampleChars) =
       ensureURLProtocol exampleChars) := by
  have h1 : (httpPre.isPrefixOf exampleChars || httpsPre.isPrefixOf exampleChars) = false := by
    decide
  have h2 : exampleChars ≠ [] := by decide
  exact ⟨⟨h1, h2⟩,
    (C10_ensureURLProtocol exampleChars).2.2.1 h1 h2,
    (C10_ensureURLProtocol exampleChars).2.2.2.2⟩

end InnovateX
